import Mathlib

/-!
# Verification of the Git Commit Helper message composer

Shallow embedding of `src/commithelp.py`. The program collects a commit
draft (type, scope, description, body, breaking flag) and assembles a
conventional-commit message; interactive prompts are modelled as functions
over the list of lines the user would type, and the single subprocess call
is modelled as the argument vector the program would hand to the external
tool.
-/

namespace CommitHelp

/-- The `COMMIT_TYPES` table keys, in source order (`commithelp.py`, lines
13-25). The descriptions play no role in the verified logic. -/
def commitTypes : List String :=
  ["feat", "fix", "docs", "style", "refactor", "perf", "test", "chore",
   "build", "ci", "revert"]

/-- The five fields of a `CommitHelper` instance (`__init__`, lines 30-35). -/
structure CommitDraft where
  type : String
  scope : String
  description : String
  body : String
  breaking : Bool
deriving Repr, DecidableEq

/-- Characters Python's `str.strip()` removes (ASCII whitespace; the
Unicode-only space characters Python also strips cannot occur in the
console lines this tool reads and are omitted). -/
def isPySpace (c : Char) : Bool :=
  c = ' ' || c = '\t' || c = '\n' || c = '\r' || c = '\x0b' || c = '\x0c'

/-- Python `s.strip()`: drop leading and trailing whitespace. -/
def pyStrip (s : String) : String :=
  ⟨((s.data.dropWhile isPySpace).reverse.dropWhile isPySpace).reverse⟩

/-- Python `s.lower()` on the ASCII letters that matter here. -/
def pyLower (s : String) : String :=
  ⟨s.data.map Char.toLower⟩

/-- Header construction of `build_message` (lines 93-99): start from the
type, append `(scope)` when the scope is non-empty (Python truthiness),
append `!` when breaking, then `: description`. -/
def buildHeader (d : CommitDraft) : String :=
  d.type
    ++ (if d.scope ≠ "" then "(" ++ d.scope ++ ")" else "")
    ++ (if d.breaking then "!" else "")
    ++ ": " ++ d.description

/-- The fixed trailing paragraph appended for breaking changes (line 110). -/
def breakingParagraph : String :=
  "BREAKING CHANGE: This commit introduces breaking changes."

/-- `CommitHelper.build_message` (lines 91-112): the parts list starts with
the header; a non-empty body contributes a blank line and the body; a
breaking draft contributes a blank line and the breaking paragraph; the
parts are joined with newlines (`"\n".join(parts)`). -/
def build_message (d : CommitDraft) : String :=
  let parts : List String :=
    [buildHeader d]
      ++ (if d.body ≠ "" then ["", d.body] else [])
      ++ (if d.breaking then ["", breakingParagraph] else [])
  String.intercalate "\n" parts

/-- `CommitHelper.check_breaking` (lines 86-89): strip and lowercase the
answer; only `"y"` counts as yes. -/
def check_breaking (response : String) : Bool :=
  pyLower (pyStrip response) = "y"

/-- The draft built by `quick_commit` (lines 154-162): only type, scope and
description are set; body and breaking keep the `__init__` defaults
`""` and `False`. `scope or ""` maps `None` to the empty string. -/
def quickDraft (commit_type description : String) (scope : Option String) :
    CommitDraft :=
  { type := commit_type
    scope := scope.getD ""
    description := description
    body := ""
    breaking := false }

/-- The argument vector `execute_commit` passes to `subprocess.run`
(line 144). -/
def gitCommitCmd (message : String) : List String :=
  ["git", "commit", "-m", message]

/-- The quick-commit branch of `main` (lines 214-225), abstracted over the
external tool's outcome `gitOk`: returns the process exit code and the
list of external calls made. An unknown type exits 1 before any call;
otherwise `quick_commit` builds the message and runs `git commit -m`,
and `main` exits 0 exactly when that call succeeded. -/
def mainQuick (commit_type description : String) (scope : Option String)
    (gitOk : Bool) : Nat × List (List String) :=
  if commit_type ∈ commitTypes then
    ((if gitOk then 0 else 1),
      [gitCommitCmd (build_message (quickDraft commit_type description scope))])
  else
    (1, [])

/-- The first line of a string: everything before the first newline. -/
def firstLine (s : String) : String :=
  ⟨s.data.takeWhile (· != '\n')⟩

/-- The marker whose occurrence in a message signals a breaking change. -/
def brkPat : List Char := "BREAKING CHANGE".data

/-- A line of console input, or a keyboard interrupt (Ctrl-C). -/
inductive InEv where
  | line (s : String)
  | interrupt
deriving Repr, DecidableEq

/-- Outcome of `select_type` on a finite input script. -/
inductive SelectResult where
  | ret (t : String)
  | exit (code : Nat)
  | pending
deriving Repr, DecidableEq

/-- Value of a non-empty string of ASCII digits, base 10. -/
def digitsVal (l : List Char) : Option Nat :=
  if l ≠ [] ∧ l.all Char.isDigit then
    some (l.foldl (fun a c => 10 * a + (c.toNat - 48)) 0)
  else none

/-- Python `int(s)` on an already-stripped string: an optional sign
followed by at least one digit; anything else raises `ValueError`,
modelled as `none`. (Digit-group underscores and non-ASCII digits, which
`int` also accepts, are omitted from the model.) -/
def pyInt (s : String) : Option Int :=
  match s.data with
  | '+' :: rest => (digitsVal rest).map (fun n => (n : Int))
  | '-' :: rest => (digitsVal rest).map (fun n => -(n : Int))
  | l => (digitsVal l).map (fun n => (n : Int))

/-- `CommitHelper.select_type` (lines 44-53) on a finite input script.
Each iteration reads a line and strips it; a parse failure of `int` or an
interrupt both land in the shared `except (ValueError, KeyboardInterrupt)`
clause, which exits the process with code 1; a number whose 0-based index
is in range returns that commit type; an out-of-range number prints an
error and reprompts. -/
def selectTypeRun : List InEv → SelectResult
  | [] => .pending
  | .interrupt :: _ => .exit 1
  | .line s :: rest =>
    match pyInt (pyStrip s) with
    | none => .exit 1
    | some n =>
      let idx := n - 1
      if 0 ≤ idx ∧ idx < (commitTypes.length : Int) then
        .ret (commitTypes.getD idx.toNat "")
      else selectTypeRun rest

/-- `CommitHelper.get_scope` (lines 55-58): one line, stripped. -/
def get_scope_run (scopeLine : String) : String :=
  pyStrip scopeLine

/-- `CommitHelper.get_description` (lines 60-72) on a finite input script.
The entry is stripped; a non-empty entry of at most 72 characters is
returned at once; a longer entry consumes the next line as confirmation
and is returned exactly when that line strips and lowercases to `"y"`,
otherwise the loop reprompts, as it also does on an empty entry. `none`
means the script ran out of lines. -/
def getDescriptionRun : List String → Option String
  | [] => none
  | s :: rest =>
    let desc := pyStrip s
    if desc ≠ "" then
      if desc.length > 72 then
        match rest with
        | [] => none
        | c :: rest2 =>
          if pyLower (pyStrip c) = "y" then some desc
          else getDescriptionRun rest2
      else some desc
    else getDescriptionRun rest

/-- `CommitHelper.get_body` (lines 74-84): lines up to the first blank
line, joined with newlines. -/
def get_body_run (bodyLines : List String) : String :=
  String.intercalate "\n" (bodyLines.takeWhile (· ≠ ""))

/-- `CommitHelper.interactive_commit` (lines 114-126) up to the call of
`build_message`: the draft assembled from the prompts' answers, or `none`
when type selection or description entry did not return a value (the run
exited or the script ran out). -/
def interactiveDraft (sel : List InEv) (scopeLine : String)
    (descLines : List String) (bodyLines : List String)
    (breakLine : String) : Option CommitDraft :=
  match selectTypeRun sel with
  | .ret t =>
    match getDescriptionRun descLines with
    | some desc =>
      some { type := t, scope := get_scope_run scopeLine,
             description := desc, body := get_body_run bodyLines,
             breaking := check_breaking breakLine }
    | none => none
  | _ => none

end CommitHelp

namespace CommitHelp

lemma buildHeader_data (d : CommitDraft) :
    (buildHeader d).data
      = d.type.data
        ++ (if d.scope ≠ "" then '(' :: (d.scope.data ++ [')']) else [])
        ++ (if d.breaking then ['!'] else [])
        ++ ':' :: ' ' :: d.description.data := by
  by_cases hs : d.scope = "" <;> by_cases hk : d.breaking <;>
    simp [buildHeader, hs, hk, String.data_append]

lemma build_message_data (d : CommitDraft) :
    (build_message d).data
      = (buildHeader d).data
        ++ (if d.body ≠ "" then '\n' :: '\n' :: d.body.data else [])
        ++ (if d.breaking then '\n' :: '\n' :: breakingParagraph.data else []) := by
  by_cases hb : d.body = "" <;> by_cases hk : d.breaking <;>
    simp [build_message, hb, hk, String.intercalate, String.intercalate.go,
      String.data_append]

lemma takeWhile_of_no_newline {l : List Char} (h : '\n' ∉ l) :
    l.takeWhile (· != '\n') = l := by
  induction l with
  | nil => rfl
  | cons x xs ih =>
    simp only [List.mem_cons, not_or] at h
    have hx : (x != '\n') = true := by
      simpa [bne_iff_ne] using fun he => h.1 he.symm
    simp [List.takeWhile_cons, hx, ih h.2]

lemma takeWhile_append_newline {l r : List Char} (h : '\n' ∉ l) :
    (l ++ '\n' :: r).takeWhile (· != '\n') = l := by
  induction l with
  | nil => simp [List.takeWhile_cons]
  | cons x xs ih =>
    simp only [List.mem_cons, not_or] at h
    have hx : (x != '\n') = true := by
      simpa [bne_iff_ne] using fun he => h.1 he.symm
    simpa [List.takeWhile_cons, hx] using ih h.2

lemma no_newline_in_commitTypes :
    ∀ t ∈ commitTypes, '\n' ∉ t.data := by decide

/-- If the header is newline-free, it is exactly the first line of the
assembled message, whatever the body and breaking flag are. -/
lemma firstLine_build_message (d : CommitDraft)
    (h : '\n' ∉ (buildHeader d).data) :
    firstLine (build_message d) = buildHeader d := by
  apply String.ext
  show (build_message d).data.takeWhile (· != '\n') = (buildHeader d).data
  rw [build_message_data d]
  by_cases hb : d.body = ""
  · by_cases hk : d.breaking
    · rw [if_neg (by simp [hb]), if_pos hk, List.append_nil]
      exact takeWhile_append_newline h
    · rw [if_neg (by simp [hb]), if_neg hk, List.append_nil, List.append_nil]
      exact takeWhile_of_no_newline h
  · rw [if_pos hb, List.append_assoc]
    exact takeWhile_append_newline h

lemma no_newline_in_header (d : CommitDraft)
    (hT : d.type ∈ commitTypes)
    (hs : '\n' ∉ d.scope.data)
    (hd : '\n' ∉ d.description.data) :
    '\n' ∉ (buildHeader d).data := by
  rw [buildHeader_data]
  intro hmem
  rcases List.mem_append.mp hmem with hmem | hmem
  · rcases List.mem_append.mp hmem with hmem | hmem
    · rcases List.mem_append.mp hmem with hmem | hmem
      · exact no_newline_in_commitTypes d.type hT hmem
      · by_cases hsc : d.scope = ""
        · simp [hsc] at hmem
        · simp only [hsc, ne_eq, not_false_eq_true, if_true,
            List.mem_cons, List.mem_append, List.mem_singleton] at hmem
          rcases hmem with h1 | h1 | h1
          · exact absurd h1 (by decide)
          · exact hs h1
          · exact absurd h1 (by decide)
    · by_cases hk : d.breaking <;> simp [hk] at hmem
  · rcases List.mem_cons.mp hmem with h1 | h1
    · exact absurd h1 (by decide)
    · rcases List.mem_cons.mp h1 with h2 | h2
      · exact absurd h2 (by decide)
      · exact hd h2

/-- C1: for a draft whose type is one of the enumerated commit types and
whose scope and description are single console lines (newline-free, as
every collected field is), the first line of the assembled message is
exactly `type(scope)!: description`, `type: description`,
`type(scope): description` or `type!: description` according to which of
scope and breaking are set. -/
theorem c1_header_cases (d : CommitDraft)
    (hT : d.type ∈ commitTypes)
    (hs : '\n' ∉ d.scope.data)
    (hd : '\n' ∉ d.description.data) :
    (d.scope ≠ "" → d.breaking = true →
      firstLine (build_message d)
        = d.type ++ "(" ++ d.scope ++ ")!: " ++ d.description)
    ∧ (d.scope = "" → d.breaking = false →
      firstLine (build_message d) = d.type ++ ": " ++ d.description)
    ∧ (d.scope ≠ "" → d.breaking = false →
      firstLine (build_message d)
        = d.type ++ "(" ++ d.scope ++ "): " ++ d.description)
    ∧ (d.scope = "" → d.breaking = true →
      firstLine (build_message d) = d.type ++ "!: " ++ d.description) := by
  refine ⟨fun h1 h2 => ?_, fun h1 h2 => ?_, fun h1 h2 => ?_, fun h1 h2 => ?_⟩ <;>
    (rw [firstLine_build_message d (no_newline_in_header d hT hs hd)]
     apply String.ext
     rw [buildHeader_data]
     simp [h1, h2, String.data_append])

/-- Witness for C1 at a concrete draft. -/
theorem c1_header_cases_witness :
    firstLine (build_message
        { type := "feat", scope := "auth", description := "Add login",
          body := "more detail", breaking := true })
      = "feat(auth)!: Add login" :=
  (c1_header_cases
      { type := "feat", scope := "auth", description := "Add login",
        body := "more detail", breaking := true }
      (by decide) (by decide) (by decide)).1 (by decide) rfl

/-- C4: the two worked examples from the spec, evaluated on
`build_message`. -/
theorem c4_examples :
    build_message
        { type := "feat", scope := "auth", description := "Add login",
          body := "", breaking := false } = "feat(auth): Add login"
    ∧ build_message
        { type := "fix", scope := "", description := "Fix null pointer",
          body := "", breaking := true }
      = "fix!: Fix null pointer\n\nBREAKING CHANGE: This commit introduces breaking changes." := by
  constructor <;> rfl

/-- C9: `check_breaking` answers true exactly when the stripped,
lowercased response is `"y"`; in particular the empty response is "no". -/
theorem c9_check_breaking :
    (∀ response : String,
      check_breaking response = true ↔ pyLower (pyStrip response) = "y")
    ∧ check_breaking "" = false
    ∧ check_breaking " Y " = true
    ∧ check_breaking "yes" = false
    ∧ check_breaking "n" = false := by
  refine ⟨fun response => ?_, by decide, by decide, by decide, by decide⟩
  simp [check_breaking]

/-- C10: every quick-mode draft has breaking `false` and an empty body, so
the assembled message is exactly the bare header
`type[(scope)]: description`, with no `!`, no body paragraph and no
breaking-change paragraph appended. -/
theorem c10_quick_message_is_header_only
    (commit_type description : String) (scope : Option String) :
    (quickDraft commit_type description scope).breaking = false
    ∧ (quickDraft commit_type description scope).body = ""
    ∧ build_message (quickDraft commit_type description scope)
      = commit_type
        ++ (if scope.getD "" ≠ "" then "(" ++ scope.getD "" ++ ")" else "")
        ++ ": " ++ description := by
  refine ⟨rfl, rfl, ?_⟩
  show String.intercalate "\n" [buildHeader (quickDraft commit_type description scope)] = _
  simp [String.intercalate, String.intercalate.go, buildHeader, quickDraft]

lemma infix_append_cons_split {α : Type} {p a b : List α} {c : α}
    (hc : c ∉ p) (h : p <:+: a ++ c :: b) : p <:+: a ∨ p <:+: b := by
  obtain ⟨s, t, hst⟩ := h
  by_cases h1 : s.length + p.length ≤ a.length
  · left
    have hsp : s ++ p <+: a ++ c :: b := ⟨t, by simpa [List.append_assoc] using hst⟩
    have hpa : s ++ p <+: a :=
      List.prefix_of_prefix_length_le hsp (List.prefix_append a (c :: b))
        (by simp only [List.length_append]; omega)
    exact List.IsInfix.trans ⟨s, [], by simp⟩ hpa.isInfix
  · by_cases h2 : a.length + 1 ≤ s.length
    · right
      have hsub : s <+: a ++ c :: b := ⟨p ++ t, by simpa [List.append_assoc] using hst⟩
      have hpre : a ++ [c] <+: a ++ c :: b := ⟨b, by simp⟩
      have hac : a ++ [c] <+: s :=
        List.prefix_of_prefix_length_le hpre hsub
          (by simp only [List.length_append, List.length_cons,
                List.length_nil]; omega)
      obtain ⟨s2, hs2⟩ := hac
      refine ⟨s2, t, ?_⟩
      rw [← hs2] at hst
      have hmm : (a ++ [c]) ++ (s2 ++ p ++ t) = (a ++ [c]) ++ b := by
        rw [← List.append_assoc, ← List.append_assoc]
        rw [hst]
        simp
      exact List.append_cancel_left hmm
    · exfalso
      have hget : (a ++ c :: b)[a.length]? = some c := by
        rw [List.getElem?_append_right (le_refl a.length)]
        simp
      rw [← hst, List.append_assoc, List.getElem?_append_right (by omega),
        List.getElem?_append_left (by omega)] at hget
      exact hc (List.getElem?_mem hget)

lemma infix_cons_split {α : Type} {p l : List α} {x : α}
    (h : p <:+: x :: l) : p <+: x :: l ∨ p <:+: l := by
  obtain ⟨s, t, hst⟩ := h
  cases s with
  | nil => exact Or.inl ⟨t, by simpa using hst⟩
  | cons y s2 =>
    simp only [List.cons_append, List.cons.injEq] at hst
    exact Or.inr ⟨s2, t, hst.2⟩

lemma brkPat_not_infix_cons {x : Char} {l : List Char}
    (hx : x ≠ 'B') (hl : ¬ brkPat <:+: l) : ¬ brkPat <:+: x :: l := by
  intro h
  rcases infix_cons_split h with h | h
  · have e : brkPat = 'B' :: "REAKING CHANGE".data := rfl
    rw [e, List.cons_prefix_cons] at h
    exact hx h.1.symm
  · exact hl h

lemma brkPat_not_infix_commitTypes :
    ∀ t ∈ commitTypes, ¬ brkPat <:+: t.data := by decide

/-- When the breaking flag is off, the assembled message contains the
breaking-change marker only if one of the draft's fields does: the
separators the composer inserts cannot complete an occurrence. -/
lemma brkPat_not_infix_message (d : CommitDraft)
    (hT : d.type ∈ commitTypes)
    (hsB : ¬ brkPat <:+: d.scope.data)
    (hdB : ¬ brkPat <:+: d.description.data)
    (hbB : ¬ brkPat <:+: d.body.data)
    (hk : d.breaking = false) :
    ¬ brkPat <:+: (build_message d).data := by
  intro h
  have hmsg : (build_message d).data
      = (d.type.data ++ (if d.scope ≠ "" then '(' :: (d.scope.data ++ [')']) else []))
        ++ ':' :: (' ' :: (d.description.data
          ++ (if d.body ≠ "" then '\n' :: ('\n' :: d.body.data) else []))) := by
    rw [build_message_data d, buildHeader_data d, hk]
    simp [List.append_assoc]
  rw [hmsg] at h
  rcases infix_append_cons_split (by decide) h with h2 | h2
  · by_cases hsc : d.scope = ""
    · rw [if_neg (by simp [hsc]), List.append_nil] at h2
      exact brkPat_not_infix_commitTypes d.type hT h2
    · rw [if_pos hsc] at h2
      rcases infix_append_cons_split (by decide) h2 with h3 | h3
      · exact brkPat_not_infix_commitTypes d.type hT h3
      · have e : d.scope.data ++ [')'] = d.scope.data ++ ')' :: ([] : List Char) := rfl
        rw [e] at h3
        rcases infix_append_cons_split (by decide) h3 with h4 | h4
        · exact hsB h4
        · rw [List.infix_nil] at h4
          exact absurd h4 (by decide)
  · have hl : ¬ brkPat <:+:
        (d.description.data ++ (if d.body ≠ "" then '\n' :: ('\n' :: d.body.data) else [])) := by
      by_cases hbody : d.body = ""
      · rw [if_neg (by simp [hbody]), List.append_nil]
        exact hdB
      · rw [if_pos hbody]
        intro h3
        rcases infix_append_cons_split (by decide) h3 with h4 | h4
        · exact hdB h4
        · exact brkPat_not_infix_cons (by decide) hbB h4
    exact brkPat_not_infix_cons (by decide) hl h2

lemma mem_of_getLast?_eq {l : List Char} {a : Char}
    (h : l.getLast? = some a) : a ∈ l := by
  cases l with
  | nil => simp at h
  | cons x xs =>
    rw [List.getLast?_eq_getLast (x :: xs) (by simp)] at h
    have hm := List.getLast_mem (l := x :: xs) (by simp)
    rwa [Option.some_inj.mp h] at hm

lemma getLast?_append_of_ne_nil {l l' : List Char} (h : l' ≠ []) :
    (l ++ l').getLast? = l'.getLast? := by
  rw [List.getLast?_append]
  cases l' with
  | nil => exact absurd rfl h
  | cons x xs => rw [List.getLast?_eq_getLast (x :: xs) (by simp)]; rfl

lemma data_ne_nil_of_ne_empty {s : String} (h : s ≠ "") : s.data ≠ [] :=
  fun hd => h (String.ext (hd.trans rfl))

lemma header_getLast?_ne_newline (d : CommitDraft)
    (hdn : '\n' ∉ d.description.data) (hdne : d.description ≠ "") :
    (buildHeader d).data.getLast? ≠ some '\n' := by
  have e : ':' :: ' ' :: d.description.data
      = [':', ' '] ++ d.description.data := rfl
  rw [buildHeader_data, e, ← List.append_assoc,
    getLast?_append_of_ne_nil (data_ne_nil_of_ne_empty hdne)]
  intro hlast
  exact hdn (mem_of_getLast?_eq hlast)

/-- C2 (amended): with the fields as the program collects them
(single-line description, body without trailing newline, no field itself
containing the marker), the message ends in the paragraph
`BREAKING CHANGE: This commit introduces breaking changes.` preceded by
exactly one blank line when the breaking flag is true, and contains no
occurrence of `BREAKING CHANGE` at all when the flag is false. -/
theorem c2_breaking_paragraph (d : CommitDraft)
    (hT : d.type ∈ commitTypes)
    (hdn : '\n' ∉ d.description.data)
    (hdne : d.description ≠ "")
    (hbl : d.body.data.getLast? ≠ some '\n')
    (hsB : ¬ brkPat <:+: d.scope.data)
    (hdB : ¬ brkPat <:+: d.description.data)
    (hbB : ¬ brkPat <:+: d.body.data) :
    (d.breaking = true →
      ∃ X : List Char,
        (build_message d).data = X ++ '\n' :: '\n' :: breakingParagraph.data
        ∧ X ≠ [] ∧ X.getLast? ≠ some '\n')
    ∧ (d.breaking = false → ¬ brkPat <:+: (build_message d).data) := by
  constructor
  · intro hk
    refine ⟨(buildHeader d).data
        ++ (if d.body ≠ "" then '\n' :: '\n' :: d.body.data else []),
      ?_, ?_, ?_⟩
    · rw [build_message_data d, hk, if_pos rfl]
    · intro he
      rcases List.append_eq_nil.mp he with ⟨he1, -⟩
      rw [buildHeader_data] at he1
      simp at he1
    · by_cases hbody : d.body = ""
      · rw [if_neg (by simp [hbody]), List.append_nil]
        exact header_getLast?_ne_newline d hdn hdne
      · rw [if_pos hbody]
        have e : '\n' :: '\n' :: d.body.data = ['\n', '\n'] ++ d.body.data := rfl
        rw [e, ← List.append_assoc,
          getLast?_append_of_ne_nil (data_ne_nil_of_ne_empty hbody)]
        exact hbl
  · exact brkPat_not_infix_message d hT hsB hdB hbB

/-- Witness for C2 at a concrete breaking draft. -/
theorem c2_breaking_paragraph_witness :
    ∃ X : List Char,
      (build_message
          { type := "feat", scope := "", description := "Change API",
            body := "", breaking := true }).data
        = X ++ '\n' :: '\n' :: breakingParagraph.data
      ∧ X ≠ [] ∧ X.getLast? ≠ some '\n' :=
  (c2_breaking_paragraph
      { type := "feat", scope := "", description := "Change API",
        body := "", breaking := true }
      (by decide) (by decide) (by decide) (by decide) (by decide)
      (by decide) (by decide)).1 rfl

/-- Counterexample to C2 as stated: a draft whose breaking flag is false
but whose description contains `BREAKING CHANGE` yields a message in
which that string appears. -/
theorem c2_counterexample :
    build_message
        { type := "feat", scope := "", description := "BREAKING CHANGE: none",
          body := "", breaking := false }
      = "feat: BREAKING CHANGE: none"
    ∧ brkPat <:+: (build_message
        { type := "feat", scope := "", description := "BREAKING CHANGE: none",
          body := "", breaking := false }).data := by
  exact ⟨rfl, by decide⟩

/-- C3: with the fields as the prompts produce them (single-line
description, body with no leading or trailing newline), a non-empty body
forms its own paragraph between the header and the optional
breaking-change paragraph, each separation being exactly one blank line;
an empty body contributes nothing. -/
theorem c3_body_paragraph (d : CommitDraft)
    (hdn : '\n' ∉ d.description.data)
    (hdne : d.description ≠ "")
    (hbh : d.body.data.head? ≠ some '\n')
    (hbl : d.body.data.getLast? ≠ some '\n') :
    (d.body ≠ "" →
      (build_message d).data
        = (buildHeader d).data ++ ('\n' :: '\n' :: d.body.data)
          ++ (if d.breaking then '\n' :: '\n' :: breakingParagraph.data else [])
      ∧ (buildHeader d).data.getLast? ≠ some '\n')
    ∧ (d.body = "" →
      (build_message d).data
        = (buildHeader d).data
          ++ (if d.breaking then '\n' :: '\n' :: breakingParagraph.data else [])) := by
  constructor
  · intro hbody
    refine ⟨?_, header_getLast?_ne_newline d hdn hdne⟩
    rw [build_message_data d, if_pos hbody]
  · intro hbody
    rw [build_message_data d, if_neg (by simp [hbody]), List.append_nil]

lemma commitTypes_length : commitTypes.length = 11 := rfl

lemma selectTypeRun_interrupt (rest : List InEv) :
    selectTypeRun (.interrupt :: rest) = .exit 1 := rfl

lemma selectTypeRun_parse_fail (s : String) (rest : List InEv)
    (h : pyInt (pyStrip s) = none) :
    selectTypeRun (.line s :: rest) = .exit 1 := by
  simp [selectTypeRun, h]

lemma selectTypeRun_out_of_range (s : String) (rest : List InEv) (n : Int)
    (h : pyInt (pyStrip s) = some n) (hr : ¬(1 ≤ n ∧ n ≤ 11)) :
    selectTypeRun (.line s :: rest) = selectTypeRun rest := by
  simp only [selectTypeRun, h]
  rw [if_neg]
  have hl : (commitTypes.length : Int) = 11 := rfl
  rw [hl]
  omega

lemma selectTypeRun_in_range (s : String) (rest : List InEv) (n : Int)
    (h : pyInt (pyStrip s) = some n) (h1 : 1 ≤ n) (h2 : n ≤ 11) :
    selectTypeRun (.line s :: rest)
      = .ret (commitTypes.getD (n - 1).toNat "") := by
  simp only [selectTypeRun, h]
  rw [if_pos]
  have hl : (commitTypes.length : Int) = 11 := rfl
  rw [hl]
  omega

lemma selectTypeRun_ret_mem :
    ∀ (evs : List InEv) (t : String),
      selectTypeRun evs = .ret t → t ∈ commitTypes := by
  intro evs
  induction evs with
  | nil => intro t ht; simp [selectTypeRun] at ht
  | cons e rest ih =>
    intro t ht
    cases e with
    | interrupt => rw [selectTypeRun_interrupt] at ht; cases ht
    | line s =>
      cases hp : pyInt (pyStrip s) with
      | none => rw [selectTypeRun_parse_fail s rest hp] at ht; cases ht
      | some n =>
        by_cases hr : 1 ≤ n ∧ n ≤ 11
        · rw [selectTypeRun_in_range s rest n hp hr.1 hr.2] at ht
          have hti : t = commitTypes.getD (n - 1).toNat "" := by
            cases ht; rfl
          have hlt : (n - 1).toNat < commitTypes.length := by
            rw [commitTypes_length]; omega
          rw [hti, List.getD_eq_getElem commitTypes "" hlt]
          exact List.getElem_mem hlt
        · rw [selectTypeRun_out_of_range s rest n hp hr] at ht
          exact ih t ht

lemma getDescriptionRun_short (s : String) (rest : List String)
    (h1 : pyStrip s ≠ "") (h2 : ¬ (pyStrip s).length > 72) :
    getDescriptionRun (s :: rest) = some (pyStrip s) := by
  cases rest <;> simp [getDescriptionRun, h1, h2]

lemma getDescriptionRun_confirm (s c : String) (rest : List String)
    (h1 : pyStrip s ≠ "") (h2 : (pyStrip s).length > 72)
    (h3 : pyLower (pyStrip c) = "y") :
    getDescriptionRun (s :: c :: rest) = some (pyStrip s) := by
  simp [getDescriptionRun, h1, h2, h3]

lemma getDescriptionRun_decline (s c : String) (rest : List String)
    (h1 : pyStrip s ≠ "") (h2 : (pyStrip s).length > 72)
    (h3 : pyLower (pyStrip c) ≠ "y") :
    getDescriptionRun (s :: c :: rest) = getDescriptionRun rest := by
  simp [getDescriptionRun, h1, h2, h3]

lemma getDescriptionRun_empty_entry (s : String) (rest : List String)
    (h1 : pyStrip s = "") :
    getDescriptionRun (s :: rest) = getDescriptionRun rest := by
  cases rest <;> simp [getDescriptionRun, h1]

lemma getDescriptionRun_ne_empty :
    ∀ (ins : List String) (d : String),
      getDescriptionRun ins = some d → d ≠ "" := by
  intro ins
  induction ins using getDescriptionRun.induct with
  | case1 => intro d hd; simp [getDescriptionRun] at hd
  | case2 s ds hne hlen =>
    intro d hd
    simp [getDescriptionRun, hne, hlen] at hd
  | case3 s ds hne hlen c rest2 hy =>
    intro d hd
    rw [getDescriptionRun_confirm s c rest2 hne hlen hy] at hd
    cases hd
    exact hne
  | case4 s ds hne hlen c rest2 hy ih =>
    intro d hd
    rw [getDescriptionRun_decline s c rest2 hne hlen hy] at hd
    exact ih d hd
  | case5 s rest ds hne hlen =>
    intro d hd
    rw [getDescriptionRun_short s rest hne hlen] at hd
    cases hd
    exact hne
  | case6 s rest ds hne ih =>
    intro d hd
    rw [getDescriptionRun_empty_entry s rest (by simpa using hne)] at hd
    exact ih d hd

/-- C5 (amended): in `select_type`, an out-of-range numeric entry
reprompts (the run continues on the remaining input), but a non-numeric
entry lands in the same `except` clause as a keyboard interrupt and both
abort the run with exit code 1; whenever the selection returns, it
returns the commit type at the 1-indexed position entered. -/
theorem c5_select_type (s : String) (rest : List InEv) (n : Int) :
    selectTypeRun (.interrupt :: rest) = .exit 1
    ∧ (pyInt (pyStrip s) = none →
        selectTypeRun (.line s :: rest) = .exit 1)
    ∧ (pyInt (pyStrip s) = some n → ¬(1 ≤ n ∧ n ≤ 11) →
        selectTypeRun (.line s :: rest) = selectTypeRun rest)
    ∧ (pyInt (pyStrip s) = some n → 1 ≤ n → n ≤ 11 →
        selectTypeRun (.line s :: rest)
          = .ret (commitTypes.getD (n - 1).toNat "")) :=
  ⟨selectTypeRun_interrupt rest,
   selectTypeRun_parse_fail s rest,
   selectTypeRun_out_of_range s rest n,
   selectTypeRun_in_range s rest n⟩

/-- Witness for C5 at the concrete entry `"3"`. -/
theorem c5_select_type_witness :
    selectTypeRun [.line "3"] = .ret (commitTypes.getD ((3 : Int) - 1).toNat "") :=
  (c5_select_type "3" [] 3).2.2.2 (by decide) (by decide) (by decide)

/-- Counterexample to C5 as stated: the non-numeric entry `"abc"` does
not reprompt; it terminates the run with exit code 1, where a reprompt
would have gone on to read `"1"` and return `"feat"`. -/
theorem c5_counterexample :
    selectTypeRun [.line "abc", .line "1"] = .exit 1
    ∧ selectTypeRun [.line "1"] = .ret "feat" := by
  exact ⟨by decide, by decide⟩

/-- C6: quick mode validates the type before doing anything external: an
unknown type exits with code 1 having made no subprocess call, while an
enumerated type goes straight to message assembly and the single
`git commit -m` invocation. -/
theorem c6_quick_type_validation (t desc : String) (scope : Option String)
    (gitOk : Bool) :
    (t ∉ commitTypes → mainQuick t desc scope gitOk = (1, []))
    ∧ (t ∈ commitTypes →
        (mainQuick t desc scope gitOk).2
          = [gitCommitCmd (build_message (quickDraft t desc scope))]) := by
  constructor <;> intro h <;> simp [mainQuick, h]

/-- Witness for C6: an invalid and a valid quick invocation. -/
theorem c6_quick_type_validation_witness :
    mainQuick "wip" "Try things" none true = (1, [])
    ∧ (mainQuick "feat" "Add login" (some "auth") true).2
      = [gitCommitCmd (build_message (quickDraft "feat" "Add login" (some "auth")))] :=
  ⟨(c6_quick_type_validation "wip" "Try things" none true).1 (by decide),
   (c6_quick_type_validation "feat" "Add login" (some "auth") true).2 (by decide)⟩

/-- C7 (amended): whenever the interactive flow reaches `build_message`,
the draft's type is enumerated and its description is non-empty; in quick
mode the type is validated before any call is made, but the description
is taken verbatim from the command line and is not checked. -/
theorem c7_invariant (sel : List InEv) (scopeLine : String)
    (descLines bodyLines : List String) (breakLine : String)
    (d : CommitDraft) (t desc : String) (scope : Option String)
    (gitOk : Bool) :
    (interactiveDraft sel scopeLine descLines bodyLines breakLine = some d →
      d.type ∈ commitTypes ∧ d.description ≠ "")
    ∧ ((mainQuick t desc scope gitOk).2 ≠ [] →
      (quickDraft t desc scope).type ∈ commitTypes) := by
  constructor
  · intro hd
    unfold interactiveDraft at hd
    cases hsel : selectTypeRun sel with
    | ret ty =>
      rw [hsel] at hd
      cases hdesc : getDescriptionRun descLines with
      | none => rw [hdesc] at hd; cases hd
      | some de =>
        rw [hdesc] at hd
        cases hd
        exact ⟨selectTypeRun_ret_mem sel ty hsel,
          getDescriptionRun_ne_empty descLines de hdesc⟩
    | exit c => rw [hsel] at hd; cases hd
    | pending => rw [hsel] at hd; cases hd
  · intro hcalls
    by_cases ht : t ∈ commitTypes
    · exact ht
    · exact absurd (by simp [mainQuick, ht]) hcalls

/-- Witness for C7: a completed interactive run and a quick run. -/
theorem c7_invariant_witness :
    ("feat" ∈ commitTypes ∧ "Add login" ≠ "")
    ∧ (quickDraft "fix" "Fix it" none).type ∈ commitTypes := by
  refine ⟨?_, ?_⟩
  · exact (c7_invariant [.line "1"] "" ["Add login"] [] "n"
      { type := "feat", scope := "", description := "Add login",
        body := "", breaking := false } "fix" "Fix it" none true).1 (by decide)
  · exact (c7_invariant [.line "1"] "" ["Add login"] [] "n"
      { type := "feat", scope := "", description := "Add login",
        body := "", breaking := false } "fix" "Fix it" none true).2 (by decide)

/-- Counterexample to C7 as stated: the quick invocation
`-q feat ""` reaches `build_message` — and the external commit call —
with an empty description, which the code never validates. -/
theorem c7_counterexample :
    (quickDraft "feat" "" none).description = ""
    ∧ mainQuick "feat" "" none true
      = (0, [gitCommitCmd (build_message (quickDraft "feat" "" none))])
    ∧ build_message (quickDraft "feat" "" none) = "feat: " := by
  exact ⟨rfl, by decide, by decide⟩

/-- C8: `get_description` returns only non-empty strings; a non-empty
entry of at most 72 characters (after stripping) is returned at once; a
longer entry is returned only after an explicit `y` confirmation; an
empty entry or a declined confirmation makes the loop read on. -/
theorem c8_get_description :
    (∀ (ins : List String) (d : String),
      getDescriptionRun ins = some d → d ≠ "")
    ∧ (∀ (s : String) (rest : List String),
        pyStrip s ≠ "" → ¬ (pyStrip s).length > 72 →
        getDescriptionRun (s :: rest) = some (pyStrip s))
    ∧ (∀ (s c : String) (rest : List String),
        pyStrip s ≠ "" → (pyStrip s).length > 72 →
        pyLower (pyStrip c) = "y" →
        getDescriptionRun (s :: c :: rest) = some (pyStrip s))
    ∧ (∀ (s : String) (rest : List String),
        pyStrip s = "" →
        getDescriptionRun (s :: rest) = getDescriptionRun rest)
    ∧ (∀ (s c : String) (rest : List String),
        pyStrip s ≠ "" → (pyStrip s).length > 72 →
        pyLower (pyStrip c) ≠ "y" →
        getDescriptionRun (s :: c :: rest) = getDescriptionRun rest) :=
  ⟨getDescriptionRun_ne_empty,
   getDescriptionRun_short,
   getDescriptionRun_confirm,
   getDescriptionRun_empty_entry,
   getDescriptionRun_decline⟩

/-- Witness for C8 on a short and a reprompted script. -/
theorem c8_get_description_witness :
    getDescriptionRun ["Fix crash"] = some (pyStrip "Fix crash")
    ∧ getDescriptionRun ["", "Fix crash"] = getDescriptionRun ["Fix crash"] :=
  ⟨(c8_get_description).2.1 "Fix crash" [] (by decide) (by decide),
   (c8_get_description).2.2.2.1 "" ["Fix crash"] (by decide)⟩

/-- Witness for C3 at a concrete draft with a body. -/
theorem c3_body_paragraph_witness :
    (build_message
        { type := "fix", scope := "ui", description := "Fix layout",
          body := "Adjust the grid.", breaking := false }).data
      = (buildHeader
        { type := "fix", scope := "ui", description := "Fix layout",
          body := "Adjust the grid.", breaking := false }).data
        ++ ('\n' :: '\n' :: ("Adjust the grid." : String).data)
        ++ (if (false : Bool) then '\n' :: '\n' :: breakingParagraph.data else []) :=
  ((c3_body_paragraph
      { type := "fix", scope := "ui", description := "Fix layout",
        body := "Adjust the grid.", breaking := false }
      (by decide) (by decide) (by decide) (by decide)).1 (by decide)).1

end CommitHelp
